import Mathlib

/-!
Shallow embedding of the runner-composition package (Go package `run`) and of its
historical variant, together with proofs of the specification claims.

The package composes units of work (runners) sequentially (`Sequence`), concurrently
(`Group`), with memoization (`Once`), detached dispatch (`Go`) and a ready-gated
startup helper (`Start`/`Ready`).

Modelling conventions:
* Go `error` values are modelled by the inductive `GoError`; each `fmt.Errorf`
  wrapping site of the source gets its own constructor carrying exactly the data the
  format string interpolates, and `%w` wrapping is reflected by the `GoError.isErr`
  chain walk (the analogue of `errors.Is`).
* The concurrent `Group.run` orchestrator is embedded as a deterministic function of
  the sequence of events its `select` loop observes: either a member report arriving
  on the buffered `errs` channel, or the shutdown timer firing.  Scheduling
  nondeterminism across members is captured by quantifying over event schedules.
* A member goroutine body (including its `recover` wrapper) is embedded by
  `groupMemberReport`, mapping the outcome of the member (normal return or panic)
  to the single record it sends on the `errs` channel.
-/

namespace RunPkg

/-- Cancellation state of a Go context: the two sentinel errors the context package
returns from Err(). absence (the `Option` layer at use sites) models Err() == nil. -/
inductive CtxErr where
  | canceled
  | deadlineExceeded
deriving Repr, DecidableEq

/-- Error values built by the package.  Constructors mirror, in order: the two
package sentinels (errors.New at the top of the file), the two context sentinels,
an opaque member-produced error, and one constructor per fmt.Errorf site:
run.Group[name] wrapping (line 122/125 of the current variant), sequence [i:last]
wrapping (Sequence.Run), run.Group recover with an error payload and with a
non-error payload, run.Go recover likewise, the timeout return
(running-set, ErrTimeout, cause — two %w verbs; the Nil form is the rendering when
the wrapped cause is a nil error, in which case %w does not wrap), the
runner-not-ready wrap in Start (likewise split on the nil-ness of the group result
it wraps), and the shutdown-with-error wrap in the stop closure. -/
inductive GoError where
  | errExited
  | errTimeout
  | ctxCanceled
  | ctxDeadlineExceeded
  | base (msg : String)
  | groupWrap (runner : String) (e : GoError)
  | seqWrap (i last : Nat) (e : GoError)
  | groupRecoverWrap (e : GoError)
  | groupRecoverMsg (msg : String)
  | goRecoverWrap (e : GoError)
  | goRecoverMsg (msg : String)
  | timeoutWrap (running : List String) (cause : GoError)
  | timeoutWrapNil (running : List String)
  | notReadyWrap (cause : GoError)
  | notReadyWrapNil
  | shutdownWrap (e : GoError)
deriving Repr, DecidableEq

/-- Chain membership in the sense of errors.Is: a target is in the chain of an error
iff it equals the error or is in the chain of one of the errors it wraps with %w.
The timeout error wraps both the ErrTimeout sentinel and the recorded cause
(a nil cause — impossible in reachable states — wraps only the sentinel, matching
the non-wrapping behaviour of %w on nil). -/
def GoError.isErr : GoError → GoError → Bool
  | GoError.groupWrap n x, t => GoError.groupWrap n x == t || GoError.isErr x t
  | GoError.seqWrap i l x, t => GoError.seqWrap i l x == t || GoError.isErr x t
  | GoError.groupRecoverWrap x, t => GoError.groupRecoverWrap x == t || GoError.isErr x t
  | GoError.goRecoverWrap x, t => GoError.goRecoverWrap x == t || GoError.isErr x t
  | GoError.timeoutWrap r c, t =>
      GoError.timeoutWrap r c == t || GoError.errTimeout == t || GoError.isErr c t
  | GoError.timeoutWrapNil r, t => GoError.timeoutWrapNil r == t || GoError.errTimeout == t
  | GoError.notReadyWrap c, t => GoError.notReadyWrap c == t || GoError.isErr c t
  | GoError.shutdownWrap x, t => GoError.shutdownWrap x == t || GoError.isErr x t
  | e, t => e == t

/-- groupErr: the record a member goroutine sends on the errs channel —
the member name and the (possibly nil) error it reported. -/
structure GroupErr where
  runner : String
  err : Option GoError
deriving Repr, DecidableEq

/-- Events the select statement of the orchestrator loop can observe: a member
report received from the errs channel, or the shutdown timer firing. -/
inductive GEvent where
  | exit (ge : GroupErr)
  | timerFired
deriving Repr, DecidableEq

/-- State owned by the orchestrator loop: the exited map (one entry per member,
initially false), the recorded cause, whether the shutdown timer has been armed
(exitTimeout is non-nil), and whether cancel() has been called on the derived
child context. -/
structure LoopState where
  exited : List (String × Bool)
  cause : Option GoError
  timerArmed : Bool
  cancelled : Bool
deriving Repr, DecidableEq

/-- The exited map as built before the loop: every member name mapped to false. -/
def initExited (members : List String) : List (String × Bool) :=
  members.map (fun n => (n, false))

/-- Orchestrator state before the first loop iteration. -/
def initState (members : List String) : LoopState :=
  { exited := initExited members, cause := none, timerArmed := false, cancelled := false }

/-- Go map assignment exited[name] = true: update the entry when the key is present,
insert it otherwise. -/
def setExited (m : List (String × Bool)) (name : String) : List (String × Bool) :=
  if m.any (fun p => p.1 == name) then
    m.map (fun p => if p.1 = name then (p.1, true) else p)
  else
    m ++ [(name, true)]

/-- Names whose exited entry is still false — the running set computed in the
timeout branch of the loop. -/
def notExitedNames (m : List (String × Bool)) : List String :=
  (m.filter (fun p => !p.2)).map (fun p => p.1)

/-- One iteration of the consuming loop for a received member report, mirroring the
case gerr := <-errs branch: mark the member exited; if no cause is recorded and the
report carries an error, record it wrapped with the member name; if the report is
nil, cancel-on-exit is enabled and still no cause, record the ErrExited sentinel
wrapped with the member name; if a cause is (now) recorded, cancel the child
context and arm the shutdown timer. -/
def stepExit (cancelOnExit : Bool) (s : LoopState) (ge : GroupErr) : LoopState :=
  let exited := setExited s.exited ge.runner
  let cause1 : Option GoError :=
    match s.cause, ge.err with
    | none, some e => some (GoError.groupWrap ge.runner e)
    | _, _ => s.cause
  let cause2 : Option GoError :=
    if ge.err = none ∧ cancelOnExit = true ∧ cause1 = none then
      some (GoError.groupWrap ge.runner GoError.errExited)
    else cause1
  if cause2 = none then
    { exited := exited, cause := cause2, timerArmed := s.timerArmed, cancelled := s.cancelled }
  else
    { exited := exited, cause := cause2, timerArmed := true, cancelled := true }

/-- Result of the consuming loop: the timeout branch returned (carrying the running
set and the recorded cause), the loop finished all len(g) iterations (carrying the
recorded cause), or the schedule is not one the code could observe to completion
(events exhausted while iterations remain, or a timer event while exitTimeout is
still nil — receiving on a nil channel never fires, so such an event cannot be
selected). -/
inductive RunOutcome where
  | timedOut (running : List String) (cause : Option GoError)
  | completed (cause : Option GoError)
  | blocked
deriving Repr, DecidableEq

/-- The consuming for range g loop: one iteration per member, each consuming the
next observed event. -/
def runLoop (cancelOnExit : Bool) : Nat → LoopState → List GEvent → RunOutcome × LoopState
  | 0, s, _ => (RunOutcome.completed s.cause, s)
  | _ + 1, s, [] => (RunOutcome.blocked, s)
  | n + 1, s, GEvent.exit ge :: rest => runLoop cancelOnExit n (stepExit cancelOnExit s ge) rest
  | _ + 1, s, GEvent.timerFired :: _ =>
    if s.timerArmed then (RunOutcome.timedOut (notExitedNames s.exited) s.cause, s)
    else (RunOutcome.blocked, s)

/-- The loop of Group.run on the initial state, one iteration per member. -/
def groupRunAux (members : List String) (cancelOnExit : Bool) (events : List GEvent) :
    RunOutcome × LoopState :=
  runLoop cancelOnExit members.length (initState members) events

/-- What Group.run hands back: the returned error value and the state of the derived
child context at return time (the deferred cancel() makes it cancelled on every
return path). -/
structure GroupReturn where
  result : Option GoError
  derivedCancelled : Bool
deriving Repr, DecidableEq

/-- Error value built by the timeout branch: fmt.Errorf with the running set, the
ErrTimeout sentinel and the recorded cause (%w of a nil cause does not wrap). -/
def mkTimeoutErr (running : List String) (cause : Option GoError) : GoError :=
  match cause with
  | some c => GoError.timeoutWrap running c
  | none => GoError.timeoutWrapNil running

/-- Group.run of the historical variant: the timeout branch returns the timeout
error; after the loop, the recorded cause is returned as is. None models an
invocation whose observed schedule does not let the code return. -/
def groupReturn_v1 (members : List String) (cancelOnExit : Bool) (events : List GEvent) :
    Option GroupReturn :=
  match groupRunAux members cancelOnExit events with
  | (RunOutcome.timedOut running cause, _) =>
    some { result := some (mkTimeoutErr running cause), derivedCancelled := true }
  | (RunOutcome.completed cause, _) =>
    some { result := cause, derivedCancelled := true }
  | (RunOutcome.blocked, _) => none

/-- Group.run of the current variant: identical to the historical one except that
after the loop, when the incoming parent context reports Err() == context.Canceled,
nil is returned instead of the recorded cause (the avoid spurious errors check).
The timeout branch is unaffected: it returns from inside the select. -/
def groupReturn_v2 (members : List String) (cancelOnExit : Bool) (inCtxErr : Option CtxErr)
    (events : List GEvent) : Option GroupReturn :=
  match groupRunAux members cancelOnExit events with
  | (RunOutcome.timedOut running cause, _) =>
    some { result := some (mkTimeoutErr running cause), derivedCancelled := true }
  | (RunOutcome.completed cause, _) =>
    some { result := if inCtxErr = some CtxErr.canceled then none else cause,
           derivedCancelled := true }
  | (RunOutcome.blocked, _) => none

/-- Returned error of the historical Group.run. -/
def groupRun_v1 (members : List String) (cancelOnExit : Bool) (events : List GEvent) :
    Option (Option GoError) :=
  (groupReturn_v1 members cancelOnExit events).map GroupReturn.result

/-- Returned error of the current Group.run. -/
def groupRun_v2 (members : List String) (cancelOnExit : Bool) (inCtxErr : Option CtxErr)
    (events : List GEvent) : Option (Option GoError) :=
  (groupReturn_v2 members cancelOnExit inCtxErr events).map GroupReturn.result

/-- State of the orchestrator after consuming a given list of member reports —
used to speak about every intermediate moment of the loop. -/
def loopFold (cancelOnExit : Bool) (members : List String) (exits : List GroupErr) : LoopState :=
  exits.foldl (stepExit cancelOnExit) (initState members)

/-- A report qualifies as a cause if it carries an error, or unconditionally when
cancel-on-exit is enabled (a nil report then records the ErrExited sentinel). -/
def qualifies (cancelOnExit : Bool) (ge : GroupErr) : Bool :=
  ge.err.isSome || cancelOnExit

/-- The cause a qualifying report records: its error wrapped with the member name,
or the ErrExited sentinel wrapped with the member name for a nil report. -/
def causeOf (ge : GroupErr) : GoError :=
  match ge.err with
  | some e => GoError.groupWrap ge.runner e
  | none => GoError.groupWrap ge.runner GoError.errExited

/-- Sequence.Run from position i among n members, where each member is represented
by the error its Run call returns when invoked.  The first component is the trace
of member indices actually invoked, in invocation order; the second the returned
error: on the first non-nil member error, the loop stops and wraps it with the
position i and the last index len(s)-1; if all members succeed, nil. -/
def seqRunFrom (n : Nat) : Nat → List (Option GoError) → List Nat × Option GoError
  | _, [] => ([], none)
  | i, some e :: _ => ([i], some (GoError.seqWrap i (n - 1) e))
  | i, none :: rest =>
    let p := seqRunFrom n (i + 1) rest
    (i :: p.1, p.2)

/-- Sequence.Run: invocation trace and returned error over the whole member list. -/
def seqRun (results : List (Option GoError)) : List Nat × Option GoError :=
  seqRunFrom results.length 0 results

/-- One invocation of a Once wrapper: given the cached outcome (none while the
wrapped runner has not executed) and the outcome the wrapped runner would produce
if executed now, return the new cache, the value handed to the caller, and whether
the wrapped runner actually executed (the once.Do body ran). -/
def onceStep (cache : Option (Option GoError)) (fresh : Option GoError) :
    Option (Option GoError) × Option GoError × Bool :=
  match cache with
  | some e => (some e, e, false)
  | none => (some fresh, fresh, true)

/-- A run of successive invocations of a Once wrapper, each entry giving what the
wrapped runner would return if invoked at that point; produces per call the value
returned to the caller and whether the wrapped runner executed.  Concurrent callers
are represented by their linearization order: sync.Once blocks late callers until
the single execution completes, and its happens-before edge makes the cached
outcome visible to them. -/
def onceTrace : Option (Option GoError) → List (Option GoError) → List (Option GoError × Bool)
  | _, [] => []
  | cache, f :: rest =>
    let s := onceStep cache f
    (s.2.1, s.2.2) :: onceTrace s.1 rest

/-- All invocations of a freshly built Once wrapper (empty cache). -/
def onceRunAll (calls : List (Option GoError)) : List (Option GoError × Bool) :=
  onceTrace none calls

/-- Payload of a Go panic: either a value implementing error, or any other value
(retained through its formatted description). -/
inductive PanicPayload where
  | errorVal (e : GoError)
  | otherVal (desc : String)
deriving Repr, DecidableEq

/-- Outcome of executing a member body: a normal return (with its possibly nil
error) or a panic with some payload. -/
inductive RunResult where
  | ret (err : Option GoError)
  | panicked (p : PanicPayload)
deriving Repr, DecidableEq

/-- Conversion applied by the recover block of a Group member goroutine: wrap the
payload with %w when it is an error, otherwise format it with %v. -/
def recoverGroup : PanicPayload → GoError
  | PanicPayload.errorVal e => GoError.groupRecoverWrap e
  | PanicPayload.otherVal d => GoError.groupRecoverMsg d

/-- The single record a Group member goroutine sends on the errs channel: its
normal outcome tagged with its name, or its recovered panic converted to an error
and tagged with its name. -/
def groupMemberReport (name : String) : RunResult → GroupErr
  | RunResult.ret e => { runner := name, err := e }
  | RunResult.panicked p => { runner := name, err := some (recoverGroup p) }

/-- The single value the goroutine launched by Go pushes into the res channel: the
runner result, or the recovered panic converted (wrapping an error payload,
formatting any other payload). -/
def goReport : RunResult → Option GoError
  | RunResult.ret e => e
  | RunResult.panicked (PanicPayload.errorVal e) => some (GoError.goRecoverWrap e)
  | RunResult.panicked (PanicPayload.otherVal d) => some (GoError.goRecoverMsg d)

/-- Capacity of the errs channel: one slot per member plus one spare
(make(chan groupErr, len(g)+1)). -/
def groupChanCapacity (members : List String) : Nat := members.length + 1

/-- The complete multiset of sends into the errs channel over an invocation: each
launched member, whatever its fate (normal return or panic), contributes exactly
the one record groupMemberReport gives it. -/
def memberSends (ms : List (String × RunResult)) : List GroupErr :=
  ms.map (fun p => groupMemberReport p.1 p.2)

/-- Whether and with what value the publish step of the ready Sequence sends on
readych.  The Sequence built by Ready is {ready probe, publish step, Idle}; by
Sequence.Run short-circuiting, the publish step (which sends ctx.Err()) runs
exactly when the probe returned nil.  No other code sends on readych, and Start
closes it only after Start itself has returned. -/
def readyPublish (probeResult : Option GoError) (ctxErrAtPublish : Option CtxErr) :
    Option (Option CtxErr) :=
  match probeResult with
  | none => some ctxErrAtPublish
  | some _ => none

/-- Observable fate of a Start call: it blocks forever on err = <-readych because
nothing ever sends there, it returns a non-nil runner-not-ready error and no usable
stop closure, or it returns nil together with the stop closure. -/
inductive StartFate where
  | blocked
  | notReady (e : GoError)
  | started
deriving Repr, DecidableEq

/-- Conversion of a context Err() value into the error Start receives on readych. -/
def ctxErrValue : Option CtxErr → Option GoError
  | none => none
  | some CtxErr.canceled => some GoError.ctxCanceled
  | some CtxErr.deadlineExceeded => some GoError.ctxDeadlineExceeded

/-- Start, as a function of the probe result, the derived context state when the
publish step would run, and the final result the detached group delivers on done:
wait for the first value on readych; if none ever comes, Start stays blocked on the
receive; on a non-nil value it cancels and returns the not-ready error wrapping the
group result received on done; on nil it returns the stop closure. -/
def startFate (probeResult : Option GoError) (ctxErrAtPublish : Option CtxErr)
    (groupResult : Option GoError) : StartFate :=
  match readyPublish probeResult ctxErrAtPublish with
  | none => StartFate.blocked
  | some published =>
    match ctxErrValue published with
    | some _ =>
      StartFate.notReady
        (match groupResult with
         | some e => GoError.notReadyWrap e
         | none => GoError.notReadyWrapNil)
    | none => StartFate.started

/-- Result of calling the stop closure Start returns: cancel the internal context,
wait for the detached group outcome on done, and wrap a non-nil outcome as a
shutdown-with-error. -/
def stopResult (groupResult : Option GoError) : Option GoError :=
  match groupResult with
  | some e => some (GoError.shutdownWrap e)
  | none => none

/-! Helper lemmas about the orchestrator loop. -/

theorem stepExit_cause_some (cancelOnExit : Bool) (s : LoopState) (ge : GroupErr)
    (c : GoError) (h : s.cause = some c) :
    (stepExit cancelOnExit s ge).cause = some c := by
  rcases ge with ⟨r, err⟩
  cases err <;> simp [stepExit, h]

theorem stepExit_cause_none (cancelOnExit : Bool) (s : LoopState) (ge : GroupErr)
    (h : s.cause = none) :
    (stepExit cancelOnExit s ge).cause
      = if qualifies cancelOnExit ge then some (causeOf ge) else none := by
  rcases ge with ⟨r, err⟩
  cases err <;> cases cancelOnExit <;> simp [stepExit, qualifies, causeOf, h]

theorem stepExit_exited (cancelOnExit : Bool) (s : LoopState) (ge : GroupErr) :
    (stepExit cancelOnExit s ge).exited = setExited s.exited ge.runner := by
  rcases ge with ⟨r, err⟩
  cases cancelOnExit <;> rcases hs : s.cause with _ | c <;> cases err <;>
    simp [stepExit, hs]

theorem stepExit_inv (cancelOnExit : Bool) (s : LoopState) (ge : GroupErr)
    (h1 : s.timerArmed = s.cause.isSome) (h2 : s.cancelled = s.cause.isSome) :
    (stepExit cancelOnExit s ge).timerArmed = (stepExit cancelOnExit s ge).cause.isSome
      ∧ (stepExit cancelOnExit s ge).cancelled = (stepExit cancelOnExit s ge).cause.isSome := by
  rcases ge with ⟨r, err⟩
  rcases hs : s.cause with _ | c
  · rw [hs] at h1 h2
    cases err <;> cases cancelOnExit <;>
      simp [stepExit, hs, h1, h2]
  · rw [hs] at h1 h2
    cases err <;> simp [stepExit, hs, h1, h2]

theorem foldl_stepExit_cause_some (cancelOnExit : Bool) (exits : List GroupErr) :
    ∀ (s : LoopState) (c : GoError), s.cause = some c →
    (exits.foldl (stepExit cancelOnExit) s).cause = some c := by
  induction exits with
  | nil => intro s c h; simpa using h
  | cons ge rest ih =>
    intro s c h
    exact ih _ _ (stepExit_cause_some _ _ _ _ h)

theorem foldl_stepExit_cause (cancelOnExit : Bool) (exits : List GroupErr) :
    ∀ (s : LoopState), s.cause = none →
    (exits.foldl (stepExit cancelOnExit) s).cause
      = (exits.find? (fun ge => qualifies cancelOnExit ge)).map causeOf := by
  induction exits with
  | nil => intro s h; simpa using h
  | cons ge rest ih =>
    intro s h
    by_cases hq : qualifies cancelOnExit ge = true
    · have hc := stepExit_cause_none cancelOnExit s ge h
      rw [if_pos hq] at hc
      rw [List.foldl_cons, List.find?_cons_of_pos _ hq,
        foldl_stepExit_cause_some cancelOnExit rest _ _ hc]
      rfl
    · have hc := stepExit_cause_none cancelOnExit s ge h
      rw [if_neg hq] at hc
      rw [List.foldl_cons, List.find?_cons_of_neg _ hq, ih _ hc]

theorem loopFold_cause (cancelOnExit : Bool) (members : List String) (exits : List GroupErr) :
    (loopFold cancelOnExit members exits).cause
      = (exits.find? (fun ge => qualifies cancelOnExit ge)).map causeOf :=
  foldl_stepExit_cause cancelOnExit exits _ rfl

theorem loopFold_cause_mono (cancelOnExit : Bool) (members : List String)
    (exits more : List GroupErr) (c : GoError)
    (h : (loopFold cancelOnExit members exits).cause = some c) :
    (loopFold cancelOnExit members (exits ++ more)).cause = some c := by
  unfold loopFold at h ⊢
  rw [List.foldl_append]
  exact foldl_stepExit_cause_some cancelOnExit more _ _ h

theorem loopFold_inv (cancelOnExit : Bool) (members : List String) (exits : List GroupErr) :
    (loopFold cancelOnExit members exits).timerArmed
        = (loopFold cancelOnExit members exits).cause.isSome
      ∧ (loopFold cancelOnExit members exits).cancelled
        = (loopFold cancelOnExit members exits).cause.isSome := by
  unfold loopFold
  have h : ∀ (s : LoopState), s.timerArmed = s.cause.isSome → s.cancelled = s.cause.isSome →
      (exits.foldl (stepExit cancelOnExit) s).timerArmed
          = (exits.foldl (stepExit cancelOnExit) s).cause.isSome
        ∧ (exits.foldl (stepExit cancelOnExit) s).cancelled
          = (exits.foldl (stepExit cancelOnExit) s).cause.isSome := by
    induction exits with
    | nil => intro s h1 h2; exact ⟨h1, h2⟩
    | cons ge rest ih =>
      intro s h1 h2
      have := stepExit_inv cancelOnExit s ge h1 h2
      exact ih _ this.1 this.2
  exact h _ rfl rfl

/-! Helper lemmas about the exited map. -/

theorem mem_setExited_false (m : List (String × Bool)) (name x : String) :
    ((x, false) ∈ setExited m name) ↔ ((x, false) ∈ m ∧ x ≠ name) := by
  unfold setExited
  by_cases hmem : m.any (fun p => p.1 == name) = true
  · rw [if_pos hmem]
    constructor
    · intro hx
      obtain ⟨p, hp, heq⟩ := List.mem_map.mp hx
      by_cases hpn : p.1 = name
      · rw [if_pos hpn] at heq
        have hsnd : (true : Bool) = false := congrArg Prod.snd heq
        exact absurd hsnd (by simp)
      · rw [if_neg hpn] at heq
        subst heq
        exact ⟨hp, hpn⟩
    · intro hx
      refine List.mem_map.mpr ⟨(x, false), hx.1, ?_⟩
      rw [if_neg hx.2]
  · rw [if_neg hmem]
    constructor
    · intro hx
      have hxm : (x, false) ∈ m := by
        rcases List.mem_append.mp hx with h | h
        · exact h
        · simp at h
      refine ⟨hxm, ?_⟩
      intro hxn
      apply hmem
      refine List.any_eq_true.mpr ⟨(x, false), hxm, ?_⟩
      simp [hxn]
    · intro hx
      exact List.mem_append.mpr (Or.inl hx.1)

theorem mem_foldl_setExited_false (ns : List String) :
    ∀ (m : List (String × Bool)) (x : String),
    ((x, false) ∈ ns.foldl setExited m) ↔ ((x, false) ∈ m ∧ x ∉ ns) := by
  induction ns with
  | nil => intro m x; simp
  | cons n rest ih =>
    intro m x
    rw [List.foldl_cons, ih, mem_setExited_false, List.mem_cons]
    constructor
    · rintro ⟨⟨hm, hne⟩, hrest⟩
      exact ⟨hm, fun h => h.elim hne fun hh => hrest hh⟩
    · rintro ⟨hm, hnot⟩
      exact ⟨⟨hm, fun h => hnot (Or.inl h)⟩, fun h => hnot (Or.inr h)⟩

theorem mem_initExited (members : List String) (x : String) :
    ((x, false) ∈ initExited members) ↔ x ∈ members := by
  unfold initExited
  constructor
  · intro hx
    rcases List.mem_map.mp hx with ⟨n, hn, heq⟩
    cases heq
    exact hn
  · intro hx
    exact List.mem_map.mpr ⟨x, hx, rfl⟩

theorem mem_notExitedNames (m : List (String × Bool)) (x : String) :
    (x ∈ notExitedNames m) ↔ ((x, false) ∈ m) := by
  unfold notExitedNames
  constructor
  · intro hx
    rcases List.mem_map.mp hx with ⟨p, hp, heq⟩
    rcases List.mem_filter.mp hp with ⟨hpm, hpf⟩
    rcases p with ⟨a, b⟩
    cases b
    · cases heq; exact hpm
    · simp at hpf
  · intro hx
    exact List.mem_map.mpr ⟨(x, false), List.mem_filter.mpr ⟨hx, by simp⟩, rfl⟩

theorem loopFold_exited (cancelOnExit : Bool) (members : List String) (exits : List GroupErr) :
    (loopFold cancelOnExit members exits).exited
      = (exits.map GroupErr.runner).foldl setExited (initExited members) := by
  unfold loopFold
  have h : ∀ (s : LoopState),
      (exits.foldl (stepExit cancelOnExit) s).exited
        = (exits.map GroupErr.runner).foldl setExited s.exited := by
    induction exits with
    | nil => intro s; rfl
    | cons ge rest ih =>
      intro s
      rw [List.foldl_cons, ih, List.map_cons, List.foldl_cons, stepExit_exited]
  exact h _

theorem loopFold_running (cancelOnExit : Bool) (members : List String) (exits : List GroupErr)
    (x : String) :
    (x ∈ notExitedNames (loopFold cancelOnExit members exits).exited)
      ↔ (x ∈ members ∧ x ∉ exits.map GroupErr.runner) := by
  rw [mem_notExitedNames, loopFold_exited, mem_foldl_setExited_false, mem_initExited]

/-! Helper lemmas about the loop as a whole. -/

theorem runLoop_exits (cancelOnExit : Bool) (exits : List GroupErr) :
    ∀ (n : Nat) (s : LoopState), exits.length = n →
    runLoop cancelOnExit n s (exits.map GEvent.exit)
      = (RunOutcome.completed (exits.foldl (stepExit cancelOnExit) s).cause,
         exits.foldl (stepExit cancelOnExit) s) := by
  induction exits with
  | nil =>
    intro n s h
    rw [← h]
    rfl
  | cons ge rest ih =>
    intro n s h
    rw [← h]
    exact ih rest.length (stepExit cancelOnExit s ge) rfl

theorem runLoop_append_exits (cancelOnExit : Bool) (pre : List GroupErr) :
    ∀ (n : Nat) (s : LoopState) (rest : List GEvent), pre.length ≤ n →
    runLoop cancelOnExit n s (pre.map GEvent.exit ++ rest)
      = runLoop cancelOnExit (n - pre.length) (pre.foldl (stepExit cancelOnExit) s) rest := by
  induction pre with
  | nil => intro n s rest _; rfl
  | cons ge pr ih =>
    intro n s rest h
    cases n with
    | zero => simp at h
    | succ m =>
      have hm : pr.length ≤ m := by simpa using h
      show runLoop cancelOnExit (m + 1) s (GEvent.exit ge :: (List.map GEvent.exit pr ++ rest)) = _
      rw [show runLoop cancelOnExit (m + 1) s
            (GEvent.exit ge :: (List.map GEvent.exit pr ++ rest))
          = runLoop cancelOnExit m (stepExit cancelOnExit s ge)
            (List.map GEvent.exit pr ++ rest) from rfl]
      rw [ih m _ rest hm]
      simp [Nat.add_sub_add_right]

theorem runLoop_timer (cancelOnExit : Bool) (n : Nat) (s : LoopState) (post : List GEvent)
    (hn : 0 < n) (harm : s.timerArmed = true) :
    runLoop cancelOnExit n s (GEvent.timerFired :: post)
      = (RunOutcome.timedOut (notExitedNames s.exited) s.cause, s) := by
  cases n with
  | zero => omega
  | succ m => simp [runLoop, harm]

theorem groupRun_v1_completed (members : List String) (cancelOnExit : Bool)
    (exits : List GroupErr) (h : exits.length = members.length) :
    groupRun_v1 members cancelOnExit (exits.map GEvent.exit)
      = some (loopFold cancelOnExit members exits).cause := by
  unfold groupRun_v1 groupReturn_v1 groupRunAux
  rw [runLoop_exits cancelOnExit exits members.length _ h]
  rfl

theorem groupRun_v2_completed (members : List String) (cancelOnExit : Bool)
    (inCtxErr : Option CtxErr) (exits : List GroupErr) (h : exits.length = members.length) :
    groupRun_v2 members cancelOnExit inCtxErr (exits.map GEvent.exit)
      = some (if inCtxErr = some CtxErr.canceled then none
            else (loopFold cancelOnExit members exits).cause) := by
  unfold groupRun_v2 groupReturn_v2 groupRunAux
  rw [runLoop_exits cancelOnExit exits members.length _ h]
  rfl

theorem groupRun_v1_timeout (members : List String) (cancelOnExit : Bool)
    (pre : List GroupErr) (post : List GEvent)
    (hlen : pre.length < members.length)
    (harm : (loopFold cancelOnExit members pre).timerArmed = true) :
    groupRun_v1 members cancelOnExit (pre.map GEvent.exit ++ GEvent.timerFired :: post)
      = some (some (mkTimeoutErr (notExitedNames (loopFold cancelOnExit members pre).exited)
          (loopFold cancelOnExit members pre).cause)) := by
  unfold loopFold at harm ⊢
  unfold groupRun_v1 groupReturn_v1 groupRunAux
  rw [runLoop_append_exits cancelOnExit pre members.length _ _ (Nat.le_of_lt hlen)]
  rw [runLoop_timer _ _ _ _ (by omega) harm]
  rfl

theorem groupRun_v2_timeout (members : List String) (cancelOnExit : Bool)
    (inCtxErr : Option CtxErr) (pre : List GroupErr) (post : List GEvent)
    (hlen : pre.length < members.length)
    (harm : (loopFold cancelOnExit members pre).timerArmed = true) :
    groupRun_v2 members cancelOnExit inCtxErr (pre.map GEvent.exit ++ GEvent.timerFired :: post)
      = some (some (mkTimeoutErr (notExitedNames (loopFold cancelOnExit members pre).exited)
          (loopFold cancelOnExit members pre).cause)) := by
  unfold loopFold at harm ⊢
  unfold groupRun_v2 groupReturn_v2 groupRunAux
  rw [runLoop_append_exits cancelOnExit pre members.length _ _ (Nat.le_of_lt hlen)]
  rw [runLoop_timer _ _ _ _ (by omega) harm]
  rfl

/-! Helper lemmas about the error chain. -/

theorem GoError.isErr_self (e : GoError) : e.isErr e = true := by
  cases e <;> simp [GoError.isErr]

theorem groupWrap_isErr_inner (n : String) (e : GoError) :
    (GoError.groupWrap n e).isErr e = true := by
  simp [GoError.isErr, GoError.isErr_self]

theorem groupWrap_isErr_of (n : String) (e t : GoError) (h : e.isErr t = true) :
    (GoError.groupWrap n e).isErr t = true := by
  simp [GoError.isErr, h]

theorem groupRecoverWrap_isErr_of (e t : GoError) (h : e.isErr t = true) :
    (GoError.groupRecoverWrap e).isErr t = true := by
  simp [GoError.isErr, h]

theorem goRecoverWrap_isErr_of (e t : GoError) (h : e.isErr t = true) :
    (GoError.goRecoverWrap e).isErr t = true := by
  simp [GoError.isErr, h]

theorem seqWrap_isErr_of (i l : Nat) (e t : GoError) (h : e.isErr t = true) :
    (GoError.seqWrap i l e).isErr t = true := by
  simp [GoError.isErr, h]

theorem timeoutWrap_isErr_timeout (r : List String) (c : GoError) :
    (GoError.timeoutWrap r c).isErr GoError.errTimeout = true := by
  simp [GoError.isErr]

theorem timeoutWrap_isErr_of (r : List String) (c t : GoError) (h : c.isErr t = true) :
    (GoError.timeoutWrap r c).isErr t = true := by
  simp [GoError.isErr, h]

/-! Helper lemmas about Sequence. -/

theorem map_add_range_succ (i m : Nat) :
    (List.range (m + 1)).map (fun k => i + k)
      = i :: (List.range m).map (fun k => (i + 1) + k) := by
  rw [List.range_succ_eq_map, List.map_cons, List.map_map, Nat.add_zero]
  congr 1
  apply List.map_congr_left
  intro a _
  simp only [Function.comp_apply]
  omega

theorem seqRunFrom_all_none (n : Nat) (pre : List (Option GoError)) (h : ∀ r ∈ pre, r = none) :
    ∀ i, seqRunFrom n i pre = ((List.range pre.length).map (fun k => i + k), none) := by
  induction pre with
  | nil => intro i; simp [seqRunFrom]
  | cons r rest ih =>
    intro i
    have hr : r = none := h r (List.mem_cons_self r rest)
    subst hr
    have hrest : ∀ x ∈ rest, x = none := fun x hx => h x (List.mem_cons_of_mem _ hx)
    have h1 : seqRunFrom n i (none :: rest)
        = (i :: (seqRunFrom n (i + 1) rest).1, (seqRunFrom n (i + 1) rest).2) := rfl
    rw [h1, ih hrest (i + 1), List.length_cons, map_add_range_succ]

theorem seqRunFrom_first_err (n : Nat) (pre : List (Option GoError)) (e : GoError)
    (post : List (Option GoError)) (h : ∀ r ∈ pre, r = none) :
    ∀ i, seqRunFrom n i (pre ++ some e :: post)
      = ((List.range (pre.length + 1)).map (fun k => i + k),
         some (GoError.seqWrap (i + pre.length) (n - 1) e)) := by
  induction pre with
  | nil =>
    intro i
    have h0 : seqRunFrom n i ([] ++ some e :: post)
        = ([i], some (GoError.seqWrap i (n - 1) e)) := rfl
    rw [h0, map_add_range_succ]
    simp
  | cons r rest ih =>
    intro i
    have hr : r = none := h r (List.mem_cons_self r rest)
    subst hr
    have hrest : ∀ x ∈ rest, x = none := fun x hx => h x (List.mem_cons_of_mem _ hx)
    have h1 : seqRunFrom n i ((none :: rest) ++ some e :: post)
        = (i :: (seqRunFrom n (i + 1) (rest ++ some e :: post)).1,
           (seqRunFrom n (i + 1) (rest ++ some e :: post)).2) := rfl
    rw [h1, ih hrest (i + 1)]
    dsimp only
    rw [List.length_cons, map_add_range_succ i (rest.length + 1),
      map_add_range_succ (i + 1) rest.length]
    have harith : i + 1 + rest.length = i + (rest.length + 1) := by omega
    rw [harith]

/-! Helper lemma about Once. -/

theorem onceTrace_cached (e : Option GoError) (calls : List (Option GoError)) :
    onceTrace (some e) calls = calls.map (fun _ => (e, false)) := by
  induction calls with
  | nil => rfl
  | cons f rest ih => simp [onceTrace, onceStep, ih]

/-! Claim theorems. -/

/-- C2: with cancel-on-exit enabled, a member reporting nil while no cause is yet
recorded produces the synthetic exited-early cause — the ErrExited sentinel wrapped
with that member's name — and cancels the remaining siblings; for a Group built
WithoutCancel, members reporting nil never produce a cause nor cancel siblings,
while a member reporting a real error still becomes the cause and still cancels
siblings. -/
theorem group_early_exit_cause_policy :
    (∀ (s : LoopState) (m : String), s.cause = none →
      (stepExit true s { runner := m, err := none }).cause
          = some (GoError.groupWrap m GoError.errExited)
        ∧ (stepExit true s { runner := m, err := none }).cancelled = true
        ∧ (GoError.groupWrap m GoError.errExited).isErr GoError.errExited = true)
  ∧ (∀ (members : List String) (exits : List GroupErr),
      (∀ ge ∈ exits, ge.err = none) →
      (loopFold false members exits).cause = none
        ∧ (loopFold false members exits).cancelled = false)
  ∧ (∀ (s : LoopState) (m : String) (e : GoError), s.cause = none →
      (stepExit false s { runner := m, err := some e }).cause = some (GoError.groupWrap m e)
        ∧ (stepExit false s { runner := m, err := some e }).cancelled = true) := by
  refine ⟨?_, ?_, ?_⟩
  · intro s m h
    refine ⟨?_, ?_, groupWrap_isErr_inner m GoError.errExited⟩ <;> simp [stepExit, h]
  · intro members exits hall
    have key : ∀ (l : List GroupErr), (∀ ge ∈ l, ge.err = none) →
        ∀ (s : LoopState), s.cause = none → s.cancelled = false →
        ((l.foldl (stepExit false) s).cause = none
          ∧ (l.foldl (stepExit false) s).cancelled = false) := by
      intro l
      induction l with
      | nil => intro _ s h1 h2; exact ⟨h1, h2⟩
      | cons ge rest ih =>
        intro hl s h1 h2
        have hge : ge.err = none := hl ge (List.mem_cons_self ge rest)
        have hstep1 : (stepExit false s ge).cause = none := by
          rcases ge with ⟨r, err⟩
          cases err
          · simp [stepExit, h1]
          · simp at hge
        have hstep2 : (stepExit false s ge).cancelled = false := by
          rcases ge with ⟨r, err⟩
          cases err
          · simp [stepExit, h1, h2]
          · simp at hge
        exact ih (fun x hx => hl x (List.mem_cons_of_mem _ hx)) _ hstep1 hstep2
    exact key exits hall (initState members) rfl rfl
  · intro s m e h
    constructor <;> simp [stepExit, h]

/-- C2 witness: concrete instances of the three parts of the policy theorem. -/
theorem group_early_exit_cause_policy_witness :
    (stepExit true (initState ["a", "b"]) { runner := "a", err := none }).cause
        = some (GoError.groupWrap "a" GoError.errExited)
  ∧ (loopFold false ["a", "b"] [{ runner := "a", err := none }]).cancelled = false
  ∧ (stepExit false (initState ["a", "b"])
        { runner := "a", err := some (GoError.base "boom") }).cancelled = true :=
  ⟨(group_early_exit_cause_policy.1 (initState ["a", "b"]) "a" rfl).1,
   (group_early_exit_cause_policy.2.1 ["a", "b"] [{ runner := "a", err := none }]
      (by intro ge hge; rw [List.mem_singleton] at hge; subst hge; rfl)).2,
   (group_early_exit_cause_policy.2.2 (initState ["a", "b"]) "a" (GoError.base "boom") rfl).2⟩

/-- C1 counterexample: a single-member cancel-on-exit Group whose member reports a
real error as the first (and only) qualifying exit, consumed to completion under a
parent context whose Err() is context.Canceled: a cause is recorded and all members
report before any timer, yet the current Group.run returns nil — it neither returns
the recorded cause nor wraps the member's error. -/
theorem group_parent_canceled_counterexample :
    groupRun_v2 ["a"] true (some CtxErr.canceled)
        [GEvent.exit { runner := "a", err := some (GoError.base "boom") }]
      = some none
  ∧ (loopFold true ["a"] [{ runner := "a", err := some (GoError.base "boom") }]).cause
      = some (GoError.groupWrap "a" (GoError.base "boom")) :=
  ⟨rfl, rfl⟩

/-- C1 amended: with cancel-on-exit enabled, the recorded cause is the first
qualifying exit observed by the consuming loop (and every exit qualifies under this
policy) and is never overwritten by later exits; if a member returns a non-nil
error as that first qualifying exit, the siblings are cancelled and — provided the
parent context's Err() is not context.Canceled when the loop completes — the
returned error wraps that member's error; if all members report before the timer
fires the Group returns the recorded cause unless the parent context's Err() is
context.Canceled, in which case it returns nil; a Group with no members returns
immediately with no error. -/
theorem group_cancel_on_exit_run (members : List String) (exits : List GroupErr)
    (inCtxErr : Option CtxErr) :
    ((loopFold true members exits).cause
        = (exits.find? (fun ge => qualifies true ge)).map causeOf)
  ∧ (∀ (c : GoError) (more : List GroupErr),
      (loopFold true members exits).cause = some c →
      (loopFold true members (exits ++ more)).cause = some c)
  ∧ (∀ (m : String) (e : GoError),
      exits.find? (fun ge => qualifies true ge) = some { runner := m, err := some e } →
      (loopFold true members exits).cancelled = true
        ∧ (exits.length = members.length → inCtxErr ≠ some CtxErr.canceled →
            groupRun_v2 members true inCtxErr (exits.map GEvent.exit)
              = some (some (GoError.groupWrap m e))
              ∧ (GoError.groupWrap m e).isErr e = true))
  ∧ (exits.length = members.length →
      groupRun_v2 members true inCtxErr (exits.map GEvent.exit)
        = some (if inCtxErr = some CtxErr.canceled then none
              else (loopFold true members exits).cause))
  ∧ groupRun_v2 [] true inCtxErr [] = some none := by
  refine ⟨loopFold_cause true members exits, ?_, ?_, ?_, ?_⟩
  · intro c more h
    exact loopFold_cause_mono true members exits more c h
  · intro m e hfind
    have hcause : (loopFold true members exits).cause
        = some (GoError.groupWrap m e) := by
      rw [loopFold_cause, hfind]
      rfl
    constructor
    · have hinv := (loopFold_inv true members exits).2
      rw [hcause] at hinv
      simpa using hinv
    · intro hlen hctx
      refine ⟨?_, groupWrap_isErr_inner m e⟩
      rw [groupRun_v2_completed members true inCtxErr exits hlen, if_neg hctx, hcause]
  · intro hlen
    exact groupRun_v2_completed members true inCtxErr exits hlen
  · show groupRun_v2 [] true inCtxErr [] = some none
    unfold groupRun_v2 groupReturn_v2 groupRunAux
    have h0 : runLoop true ([] : List String).length (initState []) []
        = (RunOutcome.completed none, initState []) := rfl
    rw [h0]
    simp

/-- C1 witness: a two-member group where member a errors first and member b then
exits nil, consumed to completion under a live parent context, returns the wrapped
error of member a. -/
theorem group_cancel_on_exit_run_witness :
    groupRun_v2 ["a", "b"] true none
        ([{ runner := "a", err := some (GoError.base "boom") },
          { runner := "b", err := none }].map GEvent.exit)
      = some (some (GoError.groupWrap "a" (GoError.base "boom"))) :=
  (((group_cancel_on_exit_run ["a", "b"]
        [{ runner := "a", err := some (GoError.base "boom") },
         { runner := "b", err := none }] none).2.2.1 "a" (GoError.base "boom") rfl).2 rfl
    (fun h => Option.noConfusion h)).1

/-- C3: the historical and current Group.run return equal outcomes for every
invocation — in particular for every timeout return, and whenever the parent
context's Err() is not context.Canceled (so also when it is DeadlineExceeded) —
except that when the loop completes with the parent context's Err() equal to
context.Canceled, the current variant returns nil while the historical one returns
the recorded cause. -/
theorem group_run_variants_refinement (members : List String) (cancelOnExit : Bool)
    (events : List GEvent) (inCtxErr : Option CtxErr) :
    (inCtxErr ≠ some CtxErr.canceled →
      groupRun_v2 members cancelOnExit inCtxErr events
        = groupRun_v1 members cancelOnExit events)
  ∧ (∀ running cause,
      (groupRunAux members cancelOnExit events).1 = RunOutcome.timedOut running cause →
      groupRun_v2 members cancelOnExit inCtxErr events
        = groupRun_v1 members cancelOnExit events)
  ∧ (∀ cause,
      (groupRunAux members cancelOnExit events).1 = RunOutcome.completed cause →
      inCtxErr = some CtxErr.canceled →
      groupRun_v2 members cancelOnExit inCtxErr events = some none
        ∧ groupRun_v1 members cancelOnExit events = some cause) := by
  have hp : groupRunAux members cancelOnExit events
      = ((groupRunAux members cancelOnExit events).1,
         (groupRunAux members cancelOnExit events).2) := rfl
  refine ⟨?_, ?_, ?_⟩
  · intro hctx
    unfold groupRun_v2 groupRun_v1 groupReturn_v2 groupReturn_v1
    rw [hp]
    cases (groupRunAux members cancelOnExit events).1 with
    | timedOut running cause => rfl
    | completed cause => simp [if_neg hctx]
    | blocked => rfl
  · intro running cause h
    unfold groupRun_v2 groupRun_v1 groupReturn_v2 groupReturn_v1
    rw [hp, h]
  · intro cause h hctx
    unfold groupRun_v2 groupRun_v1 groupReturn_v2 groupReturn_v1
    rw [hp, h]
    exact ⟨by simp [hctx], rfl⟩

/-- C4: whenever the shutdown timer fires before all members have reported, the
Group returns — terminally, the outcome being unchanged by any event after the
timer and the same in both variants and for every parent context state — an error
naming exactly the set of members that have not yet reported, wrapping the
ErrTimeout sentinel and wrapping the recorded cause. -/
theorem group_timeout_names_running_set (members : List String) (cancelOnExit : Bool)
    (inCtxErr : Option CtxErr) (pre : List GroupErr) (post : List GEvent)
    (hlen : pre.length < members.length)
    (harm : (loopFold cancelOnExit members pre).timerArmed = true) :
    ∃ (running : List String) (cause : GoError),
      groupRun_v2 members cancelOnExit inCtxErr
          (pre.map GEvent.exit ++ GEvent.timerFired :: post)
        = some (some (GoError.timeoutWrap running cause))
      ∧ (loopFold cancelOnExit members pre).cause = some cause
      ∧ (∀ n, (n ∈ running) ↔ (n ∈ members ∧ n ∉ pre.map GroupErr.runner))
      ∧ (GoError.timeoutWrap running cause).isErr GoError.errTimeout = true
      ∧ (∀ t, cause.isErr t = true → (GoError.timeoutWrap running cause).isErr t = true)
      ∧ groupRun_v2 members cancelOnExit inCtxErr
            (pre.map GEvent.exit ++ [GEvent.timerFired])
          = some (some (GoError.timeoutWrap running cause))
      ∧ groupRun_v1 members cancelOnExit (pre.map GEvent.exit ++ GEvent.timerFired :: post)
          = some (some (GoError.timeoutWrap running cause)) := by
  have hinv := (loopFold_inv cancelOnExit members pre).1
  rw [harm] at hinv
  obtain ⟨c, hc⟩ := Option.isSome_iff_exists.mp hinv.symm
  refine ⟨notExitedNames (loopFold cancelOnExit members pre).exited, c, ?_, hc,
    fun n => loopFold_running cancelOnExit members pre n, timeoutWrap_isErr_timeout _ c,
    fun t ht => timeoutWrap_isErr_of _ c t ht, ?_, ?_⟩
  · rw [groupRun_v2_timeout members cancelOnExit inCtxErr pre post hlen harm, hc]
    rfl
  · rw [groupRun_v2_timeout members cancelOnExit inCtxErr pre [] hlen harm, hc]
    rfl
  · rw [groupRun_v1_timeout members cancelOnExit pre post hlen harm, hc]
    rfl

/-- C4 witness: member a errors, the timer fires with member b still running; the
returned error names b, wraps ErrTimeout and wraps the recorded cause. -/
theorem group_timeout_names_running_set_witness :
    (1 : Nat) < (["a", "b"] : List String).length
  ∧ (loopFold true ["a", "b"] [{ runner := "a", err := some (GoError.base "boom") }]).timerArmed
      = true
  ∧ ∃ (running : List String) (cause : GoError),
      groupRun_v2 ["a", "b"] true none
          ([{ runner := "a", err := some (GoError.base "boom") }].map GEvent.exit
            ++ GEvent.timerFired :: [])
        = some (some (GoError.timeoutWrap running cause)) := by
  refine ⟨by decide, rfl, ?_⟩
  obtain ⟨running, cause, h1, -⟩ := group_timeout_names_running_set ["a", "b"] true none
    [{ runner := "a", err := some (GoError.base "boom") }] [] (by decide) rfl
  exact ⟨running, cause, h1⟩

/-- C5 counterexample: a single-member Group whose member panics with an error
payload, consumed to completion under a parent context whose Err() is
context.Canceled: the panic is recovered and reported, yet the Group returns nil,
so the returned error chain does not contain the panic payload. -/
theorem group_panic_payload_counterexample :
    groupRun_v2 ["a"] true (some CtxErr.canceled)
        [GEvent.exit (groupMemberReport "a"
          (RunResult.panicked (PanicPayload.errorVal (GoError.base "payload"))))]
      = some none
  ∧ (¬ ∃ e : GoError,
      groupRun_v2 ["a"] true (some CtxErr.canceled)
          [GEvent.exit (groupMemberReport "a"
            (RunResult.panicked (PanicPayload.errorVal (GoError.base "payload"))))]
        = some (some e) ∧ e.isErr (GoError.base "payload") = true) := by
  refine ⟨rfl, ?_⟩
  rintro ⟨e, he, -⟩
  rw [show groupRun_v2 ["a"] true (some CtxErr.canceled)
        [GEvent.exit (groupMemberReport "a"
          (RunResult.panicked (PanicPayload.errorVal (GoError.base "payload"))))]
      = some none from rfl] at he
  exact Option.noConfusion (Option.some.inj he)

/-- C5 amended: a panic in a Group member (or in a Runner dispatched via Go) is
recovered and converted into an error — wrapping the payload when it is itself an
error, otherwise formatting its description — and reported through the result
channel tagged with the member's name, so a panicking member reports like any
erroring member instead of terminating the process; when that report is the first
qualifying exit observed and the loop completes with the parent context's Err()
not context.Canceled, the Group's returned error chain contains the panic's
payload. -/
theorem panic_conversion_and_chain (name : String) (p : PanicPayload) (e : GoError) :
    (groupMemberReport name (RunResult.panicked p)).runner = name
  ∧ (groupMemberReport name (RunResult.panicked p)).err = some (recoverGroup p)
  ∧ ((groupMemberReport name (RunResult.panicked p)).err).isSome = true
  ∧ (recoverGroup (PanicPayload.errorVal e)).isErr e = true
  ∧ goReport (RunResult.panicked (PanicPayload.errorVal e)) = some (GoError.goRecoverWrap e)
  ∧ (GoError.goRecoverWrap e).isErr e = true
  ∧ (∀ (members : List String) (rest : List GroupErr) (inCtxErr : Option CtxErr),
      (groupMemberReport name (RunResult.panicked (PanicPayload.errorVal e)) :: rest).length
          = members.length →
      inCtxErr ≠ some CtxErr.canceled →
      ∃ r, groupRun_v2 members true inCtxErr
            ((groupMemberReport name (RunResult.panicked (PanicPayload.errorVal e)) :: rest).map
              GEvent.exit)
          = some (some r)
        ∧ r.isErr e = true) := by
  refine ⟨rfl, rfl, rfl, groupRecoverWrap_isErr_of e e (GoError.isErr_self e), rfl,
    goRecoverWrap_isErr_of e e (GoError.isErr_self e), ?_⟩
  intro members rest inCtxErr hlen hctx
  refine ⟨GoError.groupWrap name (GoError.groupRecoverWrap e), ?_,
    groupWrap_isErr_of name (GoError.groupRecoverWrap e) e
      (groupRecoverWrap_isErr_of e e (GoError.isErr_self e))⟩
  rw [groupRun_v2_completed members true inCtxErr _ hlen, if_neg hctx]
  have hc : (loopFold true members
      (groupMemberReport name (RunResult.panicked (PanicPayload.errorVal e)) :: rest)).cause
      = some (GoError.groupWrap name (GoError.groupRecoverWrap e)) := by
    rw [loopFold_cause, List.find?_cons_of_pos _ rfl]
    rfl
  rw [hc]

/-- C5 witness: a single panicking member whose converted report is the only exit,
under a live parent context — the returned error chain contains the payload. -/
theorem panic_conversion_and_chain_witness :
    ∃ r, groupRun_v2 ["a"] true none
        ([groupMemberReport "a"
            (RunResult.panicked (PanicPayload.errorVal (GoError.base "pay")))].map GEvent.exit)
      = some (some r) ∧ r.isErr (GoError.base "pay") = true :=
  (panic_conversion_and_chain "a" (PanicPayload.errorVal (GoError.base "pay"))
      (GoError.base "pay")).2.2.2.2.2.2 ["a"] [] none rfl (fun h => Option.noConfusion h)

/-- C6: Sequence.Run invokes members in order with the same context; on the first
member returning a non-nil error it stops immediately and returns an error
identifying the failing member's position (its index i, printed together with the
last index n-1) and wrapping the original error, having invoked exactly the
members at indices up to and including i, each exactly once, and later members
never; if all members succeed it returns no error after invoking every member
once. -/
theorem sequence_short_circuit (results : List (Option GoError)) :
    ((∀ r ∈ results, r = none) →
      seqRun results = (List.range results.length, none))
  ∧ (∀ (pre post : List (Option GoError)) (e : GoError),
      results = pre ++ some e :: post →
      (∀ r ∈ pre, r = none) →
      (seqRun results).2 = some (GoError.seqWrap pre.length (results.length - 1) e)
        ∧ (GoError.seqWrap pre.length (results.length - 1) e).isErr e = true
        ∧ (seqRun results).1 = List.range (pre.length + 1)
        ∧ (∀ j, j ≤ pre.length → (seqRun results).1.count j = 1)
        ∧ (∀ j, pre.length < j → (seqRun results).1.count j = 0)) := by
  constructor
  · intro hall
    unfold seqRun
    rw [seqRunFrom_all_none results.length results hall 0]
    simp
  · intro pre post e hres hpre
    subst hres
    have hrun : seqRun (pre ++ some e :: post)
        = ((List.range (pre.length + 1)).map (fun k => 0 + k),
           some (GoError.seqWrap (0 + pre.length) ((pre ++ some e :: post).length - 1) e)) :=
      seqRunFrom_first_err (pre ++ some e :: post).length pre e post hpre 0
    have htrace : (seqRun (pre ++ some e :: post)).1 = List.range (pre.length + 1) := by
      rw [hrun]
      simp
    refine ⟨?_, seqWrap_isErr_of pre.length ((pre ++ some e :: post).length - 1) e e
        (GoError.isErr_self e), htrace, ?_, ?_⟩
    · rw [hrun]
      simp
    · intro j hj
      rw [htrace]
      exact List.count_eq_one_of_mem (List.nodup_range _) (List.mem_range.mpr (by omega))
    · intro j hj
      rw [htrace]
      exact List.count_eq_zero.mpr (fun hmem => by
        have := List.mem_range.mp hmem
        omega)

/-- C6 witness: a three-member Sequence whose second member fails — the first two
members are invoked once each, the third never, and the result wraps the failing
member's error at position 1 of last index 2. -/
theorem sequence_short_circuit_witness :
    (seqRun [none, some (GoError.base "x"), none]).2
        = some (GoError.seqWrap 1 2 (GoError.base "x"))
  ∧ (seqRun [none, some (GoError.base "x"), none]).1 = List.range 2 :=
  ⟨((sequence_short_circuit [none, some (GoError.base "x"), none]).2 [none] [none]
      (GoError.base "x") rfl (by intro r hr; rw [List.mem_singleton] at hr; exact hr)).1,
   ((sequence_short_circuit [none, some (GoError.base "x"), none]).2 [none] [none]
      (GoError.base "x") rfl (by intro r hr; rw [List.mem_singleton] at hr; exact hr)).2.2.1⟩

/-- Auxiliary: a non-executing tail of a Once trace contains no executions. -/
theorem filter_snd_map_false (f : Option GoError) (l : List (Option GoError)) :
    (l.map (fun _ => (f, false))).filter (fun pr : Option GoError × Bool => pr.2) = [] := by
  induction l with
  | nil => rfl
  | cons a l ih => simp [List.filter_cons, ih]

/-- C7: a Once wrapper executes its underlying runner exactly once over any
nonempty sequence of invocations — concurrent callers being represented by their
linearization order, since the sync.Once guard blocks them until the single
execution finishes and publishes the cached outcome — and every caller receives
the identical cached outcome of that first execution, including identical cached
errors. -/
theorem once_exactly_once (f : Option GoError) (rest : List (Option GoError)) :
    onceRunAll (f :: rest) = (f, true) :: rest.map (fun _ => (f, false))
  ∧ ((onceRunAll (f :: rest)).filter (fun pr => pr.2)).length = 1
  ∧ (onceRunAll (f :: rest)).map Prod.fst = (f :: rest).map (fun _ => f) := by
  have h1 : onceRunAll (f :: rest) = (f, true) :: rest.map (fun _ => (f, false)) := by
    unfold onceRunAll
    rw [show onceTrace none (f :: rest) = (f, true) :: onceTrace (some f) rest from rfl]
    rw [onceTrace_cached]
  refine ⟨h1, ?_, ?_⟩
  · rw [h1, List.filter_cons]
    simp [filter_snd_map_false f rest]
  · rw [h1]
    simp

/-- C8: the claim fails on the code.  When the ready probe itself fails before the
publish step, the Sequence built by Ready short-circuits — its invocation trace
stops at index 0, so the publish step at index 1 never runs and nothing is ever
sent on readych — and Start blocks forever at err = <-readych instead of returning
the documented non-nil runner-not-ready error (the detached group meanwhile
delivers its cause on done, which Start is not reading at that point, and close of
readych is deferred until Start returns).  For contrast: when the probe succeeds
the publish step runs; a nil context error at publish time makes Start return the
stop closure (which wraps a non-nil post-readiness group outcome as a shutdown
error), and a cancellation observed at publish time yields the not-ready return. -/
theorem start_blocked_when_probe_fails :
    (seqRun [some (GoError.base "probe failed"), none, none]).1 = [0]
  ∧ readyPublish (some (GoError.base "probe failed")) none = none
  ∧ startFate (some (GoError.base "probe failed")) none
        (some (GoError.groupWrap "ready"
          (GoError.seqWrap 0 2 (GoError.base "probe failed"))))
      = StartFate.blocked
  ∧ startFate none none none = StartFate.started
  ∧ startFate none (some CtxErr.canceled)
        (some (GoError.groupWrap "runner" GoError.ctxCanceled))
      = StartFate.notReady
          (GoError.notReadyWrap (GoError.groupWrap "runner" GoError.ctxCanceled))
  ∧ stopResult (some (GoError.base "late")) = some (GoError.shutdownWrap (GoError.base "late"))
  ∧ stopResult none = none :=
  ⟨rfl, rfl, rfl, rfl, rfl, rfl, rfl⟩

/-- C9: cancellation of the derived child context is issued only after a cause has
been recorded — at every point of the consuming loop, if the child context has
been cancelled then a cause had already been committed — and on every return path
(completion, failure or timeout, in both variants) the derived context is
cancelled, the deferred cancel running unconditionally at return. -/
theorem group_cancel_only_after_cause (members : List String) (cancelOnExit : Bool)
    (exits : List GroupErr) (inCtxErr : Option CtxErr) (events : List GEvent) :
    ((loopFold cancelOnExit members exits).cancelled = true →
      ∃ c, (loopFold cancelOnExit members exits).cause = some c)
  ∧ (∀ gr, groupReturn_v2 members cancelOnExit inCtxErr events = some gr →
      gr.derivedCancelled = true)
  ∧ (∀ gr, groupReturn_v1 members cancelOnExit events = some gr →
      gr.derivedCancelled = true) := by
  have hp : groupRunAux members cancelOnExit events
      = ((groupRunAux members cancelOnExit events).1,
         (groupRunAux members cancelOnExit events).2) := rfl
  refine ⟨?_, ?_, ?_⟩
  · intro h
    have hinv := (loopFold_inv cancelOnExit members exits).2
    rw [h] at hinv
    exact Option.isSome_iff_exists.mp hinv.symm
  · intro gr h
    unfold groupReturn_v2 at h
    rw [hp] at h
    cases hout : (groupRunAux members cancelOnExit events).1 with
    | timedOut running cause =>
      rw [hout] at h
      injection h with h2
      subst h2
      rfl
    | completed cause =>
      rw [hout] at h
      injection h with h2
      subst h2
      rfl
    | blocked =>
      rw [hout] at h
      exact Option.noConfusion h
  · intro gr h
    unfold groupReturn_v1 at h
    rw [hp] at h
    cases hout : (groupRunAux members cancelOnExit events).1 with
    | timedOut running cause =>
      rw [hout] at h
      injection h with h2
      subst h2
      rfl
    | completed cause =>
      rw [hout] at h
      injection h with h2
      subst h2
      rfl
    | blocked =>
      rw [hout] at h
      exact Option.noConfusion h

/-- C9 witness: after a single nil exit under cancel-on-exit the child context is
cancelled and a cause indeed exists; a concrete completed invocation returns with
the derived context cancelled. -/
theorem group_cancel_only_after_cause_witness :
    (∃ c, (loopFold true ["a"] [{ runner := "a", err := none }]).cause = some c)
  ∧ (GroupReturn.mk none true).derivedCancelled = true :=
  ⟨(group_cancel_only_after_cause ["a"] true [{ runner := "a", err := none }] none []).1 rfl,
   (group_cancel_only_after_cause ["a"] true [] (some CtxErr.canceled)
      [GEvent.exit { runner := "a", err := none }]).2.1 (GroupReturn.mk none true) rfl⟩

/-- C10: every launched member contributes exactly one report to the errs channel
— its normal outcome or its converted panic, tagged with its name, in launch order
— so the total number of sends equals the number of members, which is strictly
below the channel capacity of one slot per member plus one spare; hence at any
moment, however many sends have already happened and even with no receiver
draining the channel after a timeout return, a send finds a free slot and can
never block. -/
theorem group_reports_bounded_by_capacity (ms : List (String × RunResult)) :
    (memberSends ms).map GroupErr.runner = ms.map Prod.fst
  ∧ (memberSends ms).length = ms.length
  ∧ (memberSends ms).length < groupChanCapacity (ms.map Prod.fst)
  ∧ (∀ k, k ≤ (memberSends ms).length → k < groupChanCapacity (ms.map Prod.fst)) := by
  have hlen : (memberSends ms).length = ms.length := by
    unfold memberSends
    rw [List.length_map]
  have hmapr : (memberSends ms).map GroupErr.runner = ms.map Prod.fst := by
    unfold memberSends
    rw [List.map_map]
    apply List.map_congr_left
    intro p _
    simp only [Function.comp_apply]
    rcases p with ⟨n, r⟩
    cases r with
    | ret e => rfl
    | panicked q => rfl
  refine ⟨hmapr, hlen, ?_, ?_⟩
  · rw [hlen]
    unfold groupChanCapacity
    rw [List.length_map]
    omega
  · intro k hk
    rw [hlen] at hk
    unfold groupChanCapacity
    rw [List.length_map]
    omega

/-- C10 witness: with two launched members — one returning normally, one panicking
— the channel holds three slots and the two sends (equal to the occupancy bound)
stay strictly below capacity. -/
theorem group_reports_bounded_by_capacity_witness :
    (2 : Nat) < groupChanCapacity ([("a", RunResult.ret none),
      ("b", RunResult.panicked (PanicPayload.otherVal "pv"))].map Prod.fst) :=
  (group_reports_bounded_by_capacity [("a", RunResult.ret none),
      ("b", RunResult.panicked (PanicPayload.otherVal "pv"))]).2.2.2 2 (by decide)

/-- C3 witness: the divergence instance — a completed invocation under a canceled
parent returns nil in the current variant and the recorded cause in the historical
one. -/
theorem group_run_variants_refinement_witness :
    groupRun_v2 ["a"] true (some CtxErr.canceled)
        [GEvent.exit { runner := "a", err := some (GoError.base "boom") }] = some none
  ∧ groupRun_v1 ["a"] true
        [GEvent.exit { runner := "a", err := some (GoError.base "boom") }]
      = some (some (GoError.groupWrap "a" (GoError.base "boom"))) :=
  (group_run_variants_refinement ["a"] true
      [GEvent.exit { runner := "a", err := some (GoError.base "boom") }]
      (some CtxErr.canceled)).2.2
    (some (GoError.groupWrap "a" (GoError.base "boom"))) rfl rfl

end RunPkg
